import Mathlib

/-!
Shallow embedding of the prompt-composition and LLM-invocation pipeline of
`llm-git` (`src/llm_git/prompts.py`, `src/llm_git/llm_utils.py`,
`src/llm_git/terminal_format.py`), together with theorems settling the
specification claims about it.
-/

set_option maxHeartbeats 1000000

namespace LlmGit

/-! ## Embedding of `prompts.py`

A template string such as `"Hello {name}"` is represented as a list of parts:
literal runs and field references.  A field reference is either a plain
variable `{name}` (looked up among the keyword arguments that
`apply_format` receives) or a prompt reference `{prompt[key]}` (looked up in
the `result["prompt"]` dictionary that `apply_format` fills in during its
single forward pass).  This mirrors exactly the two lookup paths that
`string.Formatter.get_field` takes on the templates this repository uses.
-/

/-- A field reference inside a template: `{name}` or `{prompt[name]}`. -/
inductive Field where
  | var (name : String)
  | promptRef (name : String)
deriving DecidableEq, Repr

/-- One part of a parsed template: a literal run or a field reference. -/
inductive Part where
  | lit (s : String)
  | hole (f : Field)
deriving DecidableEq, Repr

/-- A parsed template string. -/
abbrev Template := List Part

/-- One `key: template` entry of a template dictionary. -/
abbrev Entry := String × Template

/-- The formatting environment: the `result` dictionary of `apply_format`,
split into the keyword arguments (never mutated by the pass) and the
`result["prompt"]` dictionary (extended as templates are resolved).
Both are association lists with most-recent-insertion-first lookup. -/
structure Env where
  vars : List (String × String)
  prompts : List (String × String)
deriving DecidableEq, Repr

/-- `LenientFormatter.get_value` / `get_field`: a missing plain variable
becomes `<KeyError name>`, a missing prompt reference becomes
`<KeyError prompt[name]>` (the placeholder embeds the whole field text). -/
def lenientFieldValue (env : Env) : Field → String
  | .var n => (env.vars.lookup n).getD ("<KeyError " ++ n ++ ">")
  | .promptRef n => (env.prompts.lookup n).getD ("<KeyError prompt[" ++ n ++ "]>")

/-- `string.Formatter.get_field` in the default (strict) formatter: a missing
key raises `KeyError`, modelled as `Except.error ()`. -/
def strictFieldValue (env : Env) : Field → Except Unit String
  | .var n =>
    match env.vars.lookup n with
    | some v => .ok v
    | none => .error ()
  | .promptRef n =>
    match env.prompts.lookup n with
    | some v => .ok v
    | none => .error ()

/-- Formatting one template with the lenient formatter: total, substituting
placeholders for missing fields. -/
def formatLenient : Template → Env → String
  | [], _ => ""
  | .lit s :: ps, env => s ++ formatLenient ps env
  | .hole f :: ps, env => lenientFieldValue env f ++ formatLenient ps env

/-- Formatting one template with the strict default formatter: the first
missing field raises `KeyError`. -/
def formatStrict : Template → Env → Except Unit String
  | [], _ => .ok ""
  | .lit s :: ps, env => (formatStrict ps env).map (fun r => s ++ r)
  | .hole f :: ps, env =>
    match strictFieldValue env f with
    | .ok v => (formatStrict ps env).map (fun r => v ++ r)
    | .error e => .error e

/-- Which formatter `apply_format` was handed: the strict default
`string.Formatter()` or a `LenientFormatter()`. -/
inductive FmtMode where
  | strict
  | lenient
deriving DecidableEq, Repr

/-- `formatter.format(template, **result)` for the chosen formatter. -/
def formatWith : FmtMode → Template → Env → Except Unit String
  | .strict, t, env => formatStrict t env
  | .lenient, t, env => .ok (formatLenient t env)

/-- The body of `apply_format`'s inner loop for one `key, template` pair:
`try: result["prompt"][key] = formatter.format(template, **result)
except KeyError: pass`. -/
def applyStep (mode : FmtMode) (vars : List (String × String))
    (prompts : List (String × String)) (e : Entry) : List (String × String) :=
  match formatWith mode e.2 ⟨vars, prompts⟩ with
  | .ok s => (e.1, s) :: prompts
  | .error _ => prompts

/-- The single forward pass of `apply_format` over a flat list of
`key, template` entries, threading the growing `result["prompt"]` map. -/
def runEntries (mode : FmtMode) (vars : List (String × String))
    (entries : List Entry) : List (String × String) :=
  entries.foldl (applyStep mode vars) []

/-- `apply_format(templates, formatter, **kwargs)`: iterate the template
dictionaries in layer order (global, user, repository), and within each
dictionary the entries in order, in one combined pass. -/
def applyFormat (mode : FmtMode) (templates : List (List Entry))
    (vars : List (String × String)) : List (String × String) :=
  runEntries mode vars templates.flatten

/-- The default-variable injection at the top of
`PromptFactory._eval_prompt_template`: each default key is added only when
the caller did not supply it. -/
def addDefaults (kwargs defaults : List (String × String)) :
    List (String × String) :=
  kwargs ++ defaults.filter (fun p => (kwargs.lookup p.1).isNone)

/-- `PromptFactory._eval_prompt_template(prompt_id, kwargs)`: add default
variables, run `apply_format` over the factory's template data, and return
either the resolved prompt or the `<KeyError prompt[id]>` placeholder when
the id is absent from the resolved map. -/
def evalPromptTemplate (templateData : List (List Entry)) (mode : FmtMode)
    (promptId : String) (kwargs defaults : List (String × String)) : String :=
  let kw := addDefaults kwargs defaults
  let formatted := applyFormat mode templateData kw
  match formatted.lookup promptId with
  | none => "<KeyError prompt[" ++ promptId ++ "]>"
  | some s => s

/-! ## Embedding of `llm_utils.py`

`LLMRequest` keeps the five dataclass fields.  `execute` is modelled against
an explicit provider function (standing for `model.prompt`), and returns the
outcome together with the list of provider invocations that took place, each
recorded as the `(prompt, system_prompt)` pair that was sent — this makes
"the provider was called zero times" and "the prompt sent on attempt k"
directly statable.  `with_retry`'s loop is fuel recursion on the remaining
iterations of `for i in range(retries)`.
-/

/-- The `LLMRequest` dataclass. -/
structure LLMRequest where
  prompt : String
  system_prompt : String
  model_id : Option String := none
  stream : Bool := true
  output_type : String := "markdown"
deriving DecidableEq, Repr

/-- The exceptions `execute` can raise: `click.ClickException` (with its
message), `click.Abort` (the `LLM_GIT_ABORT` escape hatch), or an exception
propagating out of the provider call. -/
inductive ExecError where
  | clickException (msg : String)
  | aborted
  | providerError (e : String)
deriving DecidableEq, Repr

/-- `LLMRequest.execute`.  `defaultModel` stands for `get_default_model()`,
`abortRequest` for the `LLM_GIT_ABORT == "request"` check, and `provider`
for `model.prompt(prompt, system, stream)` on the resolved model.  The
second component lists the provider invocations made, as
`(prompt, system_prompt)` pairs. -/
def execute (req : LLMRequest) (defaultModel : String) (abortRequest : Bool)
    (provider : String → String → String → Except String String) :
    Except ExecError String × List (String × String) :=
  if req.prompt = "" then
    (.error (.clickException "Prompt is empty"), [])
  else
    let modelId := req.model_id.getD defaultModel
    if abortRequest then
      (.error .aborted, [])
    else
      match provider modelId req.prompt req.system_prompt with
      | .ok r => (.ok r, [(req.prompt, req.system_prompt)])
      | .error e => (.error (.providerError e), [(req.prompt, req.system_prompt)])

/-- The error block `with_retry` appends to the original prompt once the
error list is non-empty:
`"\n\nPrevious errors:\n" + fence + "\n" + "\n".join(errors) + "\n" + fence + "\n"`. -/
def errorBlock (errors : List String) : String :=
  "\n\nPrevious errors:\n```\n" ++ String.intercalate "\n" errors ++ "\n```\n"

/-- The rebuilt prompt of a retry attempt:
`f"{original_prompt}\n\nPrevious errors:\n..."`. -/
def buildRetryPrompt (original : String) (errors : List String) : String :=
  original ++ errorBlock errors

/-- The ways `with_retry` terminates abnormally: an exception propagating out
of `execute`; the final `click.ClickException(f"Failed after {retries}
retries") from errors[-1]`; or the `IndexError` that evaluating `errors[-1]`
raises when the error list is empty. -/
inductive RetryError where
  | execFailure (e : ExecError)
  | failedAfter (retries : Nat) (lastError : String)
  | indexError
deriving DecidableEq, Repr

/-- What a `with_retry` call produces: its outcome, the request object as it
stands after the call (the method mutates `self.prompt`), and every provider
invocation made, as `(prompt, system_prompt)` pairs. -/
structure RetryResult (T : Type) where
  outcome : Except RetryError T
  finalReq : LLMRequest
  calls : List (String × String)
deriving Repr

/-- The `for i in range(retries)` loop of `LLMRequest.with_retry`, as fuel
recursion on the remaining iterations.  `providerAt i` is the provider used
on attempt `i` and `func i` the validator's behaviour on attempt `i`
(Python's closures may be stateful, so both are indexed by the attempt). -/
def withRetryLoop {T : Type} (defaultModel : String) (abortRequest : Bool)
    (providerAt : Nat → String → String → String → Except String String)
    (func : Nat → String → Except String T)
    (original : String) (retries : Nat) :
    Nat → Nat → LLMRequest → List String → List (String × String) → RetryResult T
  | 0, _, req, errors, calls =>
    { outcome :=
        match errors.getLast? with
        | some e => .error (.failedAfter retries e)
        | none => .error .indexError
      finalReq := req
      calls := calls }
  | n + 1, i, req, errors, calls =>
    let req1 :=
      if errors.isEmpty then req
      else { req with prompt := buildRetryPrompt original errors }
    match execute req1 defaultModel abortRequest (providerAt i) with
    | (res, newCalls) =>
      let calls1 := calls ++ newCalls
      match res with
      | .error e =>
        { outcome := .error (.execFailure e), finalReq := req1, calls := calls1 }
      | .ok r =>
        match func i r with
        | .ok t => { outcome := .ok t, finalReq := req1, calls := calls1 }
        | .error e =>
          withRetryLoop defaultModel abortRequest providerAt func original retries
            n (i + 1) { req1 with prompt := original } (errors ++ [e]) calls1

/-- `LLMRequest.with_retry(func, retries)`: start with an empty error list,
remember the original prompt, and run the loop. -/
def withRetry {T : Type} (req : LLMRequest) (defaultModel : String)
    (abortRequest : Bool)
    (providerAt : Nat → String → String → String → Except String String)
    (func : Nat → String → Except String T) (retries : Nat) : RetryResult T :=
  withRetryLoop defaultModel abortRequest providerAt func req.prompt retries
    retries 0 req [] []

/-- The prompt that attempt `j` (0-based) sends when all earlier attempts
failed with errors `err 0, …, err (j-1)`. -/
def sentPrompt (original : String) (err : Nat → String) (j : Nat) : String :=
  if j = 0 then original
  else buildRetryPrompt original ((List.range j).map err)

/-! ## Embedding of `terminal_format.py`

`StreamingFormatter` keeps an append-only text buffer and a format type.
The rich-library highlighters (`Markdown`, `Syntax`) can raise on partial
input; they are modelled as an oracle `render : format_type → buffer →
Option R` where `none` stands for the highlighter raising.  The value a
render call produces is either a rich renderable or the raw buffer text. -/

/-- What `_format_current_buffer` returns: a highlighter renderable, or the
raw buffer string (the unknown-format default and the exception fallback). -/
inductive Rendered (R : Type) where
  | rich (r : R)
  | raw (s : String)
deriving DecidableEq, Repr

/-- The `StreamingFormatter` state: its accumulated buffer and format type. -/
structure StreamingFormatter where
  buffer : String
  format_type : String
deriving DecidableEq, Repr

/-- The `try: … except Exception: return self.buffer` wrapper around one
highlighter call. -/
def renderFallback {R : Type} (o : Option R) (buffer : String) : Rendered R :=
  match o with
  | some r => .rich r
  | none => .raw buffer

/-- `StreamingFormatter._format_current_buffer`: dispatch on the format type,
run the matching highlighter on the whole buffer, and fall back to the raw
buffer if the highlighter raises or the format type is unknown. -/
def formatCurrentBuffer {R : Type} (render : String → String → Option R)
    (sf : StreamingFormatter) : Rendered R :=
  if sf.format_type = "markdown" then
    renderFallback (render "markdown" sf.buffer) sf.buffer
  else if sf.format_type = "diff" then
    renderFallback (render "diff" sf.buffer) sf.buffer
  else if sf.format_type = "code" then
    renderFallback (render "code" sf.buffer) sf.buffer
  else
    .raw sf.buffer

/-- `StreamingFormatter.update(new_content)`: append the fragment to the
buffer, then re-render the entire accumulated buffer. -/
def update {R : Type} (render : String → String → Option R)
    (sf : StreamingFormatter) (newContent : String) :
    StreamingFormatter × Rendered R :=
  let sf1 : StreamingFormatter := { sf with buffer := sf.buffer ++ newContent }
  (sf1, formatCurrentBuffer render sf1)

/-- The loop of `StreamingFormatter.display_stream`: feed each fragment of
the (finite) stream through `update`, collecting the successive render
results passed to `live.update`. -/
def displayStream {R : Type} (render : String → String → Option R)
    (sf : StreamingFormatter) :
    List String → StreamingFormatter × List (Rendered R)
  | [] => (sf, [])
  | c :: cs =>
    let sf1 := update render sf c
    let rest := displayStream render sf1.1 cs
    (rest.1, sf1.2 :: rest.2)

/-- Concatenation of a list of stream fragments. -/
def concatAll : List String → String
  | [] => ""
  | c :: cs => c ++ concatAll cs

/-! ## Helper lemmas -/

theorem append_ne_of_ne_empty (a b : String) (h : b ≠ "") : a ++ b ≠ a := by
  intro he
  apply h
  have hd := congrArg String.data he
  rw [String.data_append] at hd
  have hnil : b.data = [] := by
    have hlen := congrArg List.length hd
    simp at hlen
    exact List.eq_nil_of_length_eq_zero hlen
  cases b
  simp at hnil
  subst hnil
  rfl

theorem ne_empty_of_append_left (a b : String) (h : a ≠ "") : a ++ b ≠ "" := by
  intro he
  apply h
  have hlen := congrArg String.length he
  rw [String.length_append] at hlen
  have h0 : ("" : String).length = 0 := rfl
  rw [h0] at hlen
  have ha : a.length = 0 := by omega
  have hd : a.data = [] := List.eq_nil_of_length_eq_zero ha
  cases a
  simp at hd
  subst hd
  rfl

theorem errorBlock_ne_empty (errors : List String) : errorBlock errors ≠ "" := by
  rw [errorBlock]
  exact ne_empty_of_append_left _ _ (ne_empty_of_append_left _ _ (by decide))

theorem buildRetryPrompt_ne_original (original : String) (errors : List String) :
    buildRetryPrompt original errors ≠ original :=
  append_ne_of_ne_empty original (errorBlock errors) (errorBlock_ne_empty errors)

theorem buildRetryPrompt_ne_empty (original : String) (errors : List String) :
    buildRetryPrompt original errors ≠ "" := by
  rw [buildRetryPrompt]
  intro he
  apply errorBlock_ne_empty errors
  have hlen := congrArg String.length he
  rw [String.length_append] at hlen
  have h0 : ("" : String).length = 0 := rfl
  rw [h0] at hlen
  have hb : (errorBlock errors).length = 0 := by omega
  have hd : (errorBlock errors).data = [] := List.eq_nil_of_length_eq_zero hb
  generalize hx : errorBlock errors = x at *
  cases x
  simp at hd
  subst hd
  rfl

/-! ## C4: empty prompt is rejected before any provider call -/

/-- C4: calling `execute` with an empty user prompt raises the fatal
`click.ClickException("Prompt is empty")` and the provider is invoked zero
times (the recorded call list is empty). -/
theorem spec_C4 (req : LLMRequest) (defaultModel : String) (abortRequest : Bool)
    (provider : String → String → String → Except String String)
    (h : req.prompt = "") :
    execute req defaultModel abortRequest provider
      = (.error (.clickException "Prompt is empty"), []) := by
  rw [execute, if_pos h]

/-- Witness for C4 at a concrete request and a counting stub provider. -/
theorem spec_C4_witness :
    (LLMRequest.prompt ⟨"", "sys", none, true, "markdown"⟩ = "")
    ∧ execute ⟨"", "sys", none, true, "markdown"⟩ "gpt-4" false
        (fun _ _ _ => .ok "response")
      = (.error (.clickException "Prompt is empty"), []) :=
  ⟨rfl, spec_C4 ⟨"", "sys", none, true, "markdown"⟩ "gpt-4" false
    (fun _ _ _ => .ok "response") rfl⟩

/-! ## C9: a retry budget of zero raises IndexError after zero attempts -/

/-- C9: `with_retry` with `retries = 0` makes zero attempts (no provider
call is recorded) and fails by evaluating `errors[-1]` on the empty error
list — an `IndexError`, which is a different error from the user-visible
`ClickException("Failed after N retries")` raised for positive budgets. -/
theorem spec_C9 {T : Type} (req : LLMRequest) (defaultModel : String)
    (abortRequest : Bool)
    (providerAt : Nat → String → String → String → Except String String)
    (func : Nat → String → Except String T) :
    withRetry req defaultModel abortRequest providerAt func 0
      = { outcome := .error .indexError, finalReq := req, calls := [] }
    ∧ ∀ (n : Nat) (e : String),
        (RetryError.indexError : RetryError) ≠ .failedAfter n e := by
  constructor
  · rfl
  · intro n e h
    cases h

/-- Witness for C9 at a concrete request, provider and validator. -/
theorem spec_C9_witness :
    withRetry (⟨"p", "s", none, true, "markdown"⟩ : LLMRequest) "m" false
        (fun _ _ _ _ => .ok "r") (fun _ _ => (.ok 0 : Except String Nat)) 0
      = { outcome := .error .indexError,
          finalReq := ⟨"p", "s", none, true, "markdown"⟩, calls := [] }
    ∧ (RetryError.indexError : RetryError) ≠ .failedAfter 3 "e" := by
  have h := spec_C9 (T := Nat) ⟨"p", "s", none, true, "markdown"⟩ "m" false
    (fun _ _ _ _ => .ok "r") (fun _ _ => .ok 0)
  exact ⟨h.1, h.2 3 "e"⟩

/-! ## Lemmas about the `apply_format` pass -/

theorem lookup_applyStep_of_ne (mode : FmtMode) (vars st : List (String × String))
    (e : Entry) (k : String) (h : e.1 ≠ k) :
    (applyStep mode vars st e).lookup k = st.lookup k := by
  rw [applyStep]
  cases hf : formatWith mode e.2 ⟨vars, st⟩ with
  | ok s =>
    have hb : (k == e.1) = false := beq_eq_false_iff_ne.mpr (fun hh => h hh.symm)
    simp [List.lookup, hb]
  | error e2 => rfl

theorem lookup_foldl_of_ne (mode : FmtMode) (vars : List (String × String)) :
    ∀ (entries : List Entry) (st : List (String × String)) (k : String),
      (∀ p ∈ entries, p.1 ≠ k) →
      (entries.foldl (applyStep mode vars) st).lookup k = st.lookup k := by
  intro entries
  induction entries with
  | nil => intro st k _; rfl
  | cons e es ih =>
    intro st k h
    rw [List.foldl_cons, ih _ k (fun p hp => h p (List.mem_cons_of_mem e hp)),
      lookup_applyStep_of_ne mode vars st e k (h e (List.mem_cons_self e es))]

theorem lookup_isSome_applyStep (mode : FmtMode) (vars st : List (String × String))
    (e : Entry) (k : String) (h : (st.lookup k).isSome) :
    ((applyStep mode vars st e).lookup k).isSome := by
  rw [applyStep]
  cases hf : formatWith mode e.2 ⟨vars, st⟩ with
  | ok s =>
    cases hb : k == e.1 with
    | true => simp [List.lookup, hb]
    | false => simp [List.lookup, hb, h]
  | error e2 => exact h

theorem lookup_isSome_foldl (mode : FmtMode) (vars : List (String × String)) :
    ∀ (entries : List Entry) (st : List (String × String)) (k : String),
      (st.lookup k).isSome →
      ((entries.foldl (applyStep mode vars) st).lookup k).isSome := by
  intro entries
  induction entries with
  | nil => intro st k h; exact h
  | cons e es ih =>
    intro st k h
    exact ih _ k (lookup_isSome_applyStep mode vars st e k h)

/-! ## C5: lenient resolution never raises and embeds the missing name -/

/-- C5: with the lenient formatter, a template that references an undefined
variable `n` still resolves (the formatter is a total function), and its
resolved string contains the placeholder `<KeyError n>` embedding the
missing variable's literal name; in particular the template set
`[{"greet": "Hello {name}"}]` with no `name` supplied resolves `"greet"` to
`"Hello <KeyError name>"`. -/
theorem spec_C5 :
    (∀ (t : Template) (env : Env) (n : String),
        Part.hole (Field.var n) ∈ t → env.vars.lookup n = none →
        ∃ a b, formatLenient t env = a ++ ("<KeyError " ++ n ++ ">") ++ b)
    ∧ (applyFormat .lenient
        [[("greet", [Part.lit "Hello ", Part.hole (Field.var "name")])]]
        []).lookup "greet" = some "Hello <KeyError name>" := by
  constructor
  · intro t env n hmem hnone
    induction t with
    | nil => simp at hmem
    | cons p ps ih =>
      rcases List.mem_cons.mp hmem with hp | hp
      · subst hp
        refine ⟨"", formatLenient ps env, ?_⟩
        simp [formatLenient, lenientFieldValue, hnone]
      · obtain ⟨a, b, hab⟩ := ih hp
        cases p with
        | lit s =>
          exact ⟨s ++ a, b, by
            simp [formatLenient, hab, String.append_assoc]⟩
        | hole f =>
          exact ⟨lenientFieldValue env f ++ a, b, by
            simp [formatLenient, hab, String.append_assoc]⟩
  · decide

/-- Witness for C5 at the `"Hello {name}"` template of the spec scenario. -/
theorem spec_C5_witness :
    (Part.hole (Field.var "name")
        ∈ [Part.lit "Hello ", Part.hole (Field.var "name")])
    ∧ (Env.vars ⟨[], []⟩).lookup "name" = none
    ∧ ∃ a b, formatLenient [Part.lit "Hello ", Part.hole (Field.var "name")]
        ⟨[], []⟩ = a ++ ("<KeyError " ++ "name" ++ ">") ++ b :=
  ⟨by decide, by decide,
    spec_C5.1 [Part.lit "Hello ", Part.hole (Field.var "name")] ⟨[], []⟩ "name"
      (by decide) (by decide)⟩

/-! ## C7: an undefined prompt name yields a distinguishable placeholder -/

/-- C7: in lenient mode, requesting a prompt name defined in no layer makes
`_eval_prompt_template` return the placeholder `<KeyError prompt[id]>`
(evaluation is a total function — nothing is raised), and that placeholder
differs from the placeholder a missing plain variable of the same name
produces, so the two failure kinds are distinguishable. -/
theorem spec_C7 (td : List (List Entry)) (kwargs defaults : List (String × String))
    (pid : String) (h : ∀ d ∈ td, ∀ p ∈ d, p.1 ≠ pid) :
    evalPromptTemplate td .lenient pid kwargs defaults
      = "<KeyError prompt[" ++ pid ++ "]>"
    ∧ ∀ (env : Env), env.vars.lookup pid = none →
        evalPromptTemplate td .lenient pid kwargs defaults
          ≠ lenientFieldValue env (Field.var pid) := by
  have hflat : ∀ p ∈ td.flatten, p.1 ≠ pid := by
    intro p hp
    obtain ⟨d, hd, hpd⟩ := List.mem_flatten.mp hp
    exact h d hd p hpd
  have hlook : (applyFormat .lenient td (addDefaults kwargs defaults)).lookup pid
      = none := by
    rw [applyFormat, runEntries, lookup_foldl_of_ne _ _ _ _ _ hflat]
    rfl
  have hval : evalPromptTemplate td .lenient pid kwargs defaults
      = "<KeyError prompt[" ++ pid ++ "]>" := by
    rw [evalPromptTemplate]
    simp only [hlook]
  refine ⟨hval, ?_⟩
  intro env henv heq
  rw [hval] at heq
  have hfield : lenientFieldValue env (Field.var pid) = "<KeyError " ++ pid ++ ">" := by
    rw [lenientFieldValue]
    simp [henv]
  rw [hfield] at heq
  have hlen := congrArg String.length heq
  rw [String.length_append, String.length_append, String.length_append,
    String.length_append] at hlen
  have h1 : ("<KeyError prompt[" : String).length = 17 := by decide
  have h2 : ("]>" : String).length = 2 := by decide
  have h3 : ("<KeyError " : String).length = 10 := by decide
  have h4 : (">" : String).length = 1 := by decide
  omega

/-- Witness for C7 at a one-layer template set not defining the requested
name. -/
theorem spec_C7_witness :
    (∀ d ∈ [[(("a" : String), ([Part.lit "x"] : Template))]], ∀ p ∈ d, p.1 ≠ "b")
    ∧ evalPromptTemplate [[("a", [Part.lit "x"])]] .lenient "b" [] []
        = "<KeyError prompt[" ++ "b" ++ "]>" :=
  ⟨by decide,
    (spec_C7 [[("a", [Part.lit "x"])]] [] [] "b" (by decide)).1⟩

theorem lookup_run_last (mode : FmtMode) (vars : List (String × String))
    (A rsuf : List Entry) (x : String) (tr : Template) (s : String)
    (hfmt : formatWith mode tr ⟨vars, runEntries mode vars A⟩ = .ok s)
    (hsuf : ∀ p ∈ rsuf, p.1 ≠ x) :
    (runEntries mode vars (A ++ (x, tr) :: rsuf)).lookup x = some s := by
  rw [runEntries] at hfmt ⊢
  rw [List.foldl_append, List.foldl_cons,
    lookup_foldl_of_ne mode vars rsuf _ x hsuf, applyStep]
  simp [hfmt, List.lookup]

/-! ## C3: a strict-mode failure skips only its own key -/

/-- C3: in strict mode, an entry whose template hits an unresolvable
variable (its strict formatting raises `KeyError` at that point of the
pass) is simply skipped — the whole resolution equals the resolution of the
same template set with that one entry removed — and every entry whose
template does resolve at its point of the pass ends up as a key of the
resulting prompt map. -/
theorem spec_C3 (vars : List (String × String)) :
    (∀ (ds1 : List (List Entry)) (d1 d2 : List Entry) (ds2 : List (List Entry))
        (key : String) (t : Template),
        formatStrict t ⟨vars, runEntries .strict vars (ds1.flatten ++ d1)⟩
          = .error () →
        applyFormat .strict (ds1 ++ (d1 ++ (key, t) :: d2) :: ds2) vars
          = applyFormat .strict (ds1 ++ (d1 ++ d2) :: ds2) vars)
    ∧ (∀ (ts : List (List Entry)) (pre suf : List Entry) (k2 : String)
        (t2 : Template) (s2 : String),
        ts.flatten = pre ++ (k2, t2) :: suf →
        formatStrict t2 ⟨vars, runEntries .strict vars pre⟩ = .ok s2 →
        ((applyFormat .strict ts vars).lookup k2).isSome) := by
  constructor
  · intro ds1 d1 d2 ds2 key t hfail
    rw [runEntries] at hfail
    rw [applyFormat, applyFormat, runEntries, runEntries]
    simp only [List.flatten_append, List.flatten_cons, List.append_assoc,
      List.foldl_append, List.foldl_cons] at hfail ⊢
    congr 1
    rw [applyStep]
    simp only [formatWith, hfail]
  · intro ts pre suf k2 t2 s2 hflat hok
    rw [runEntries] at hok
    rw [applyFormat, runEntries, hflat, List.foldl_append, List.foldl_cons]
    apply lookup_isSome_foldl
    rw [applyStep]
    simp [formatWith, hok, List.lookup]

/-- Witness for C3: a two-entry dictionary whose first template references a
missing variable still resolves its second entry. -/
theorem spec_C3_witness :
    (formatStrict [Part.hole (Field.var "missing")]
        ⟨[("v", "1")], runEntries .strict [("v", "1")]
          (([] : List (List Entry)).flatten ++ [])⟩ = .error ())
    ∧ applyFormat .strict
        [[(("bad" : String), [Part.hole (Field.var "missing")]),
          (("good" : String), [Part.hole (Field.var "v")])]] [("v", "1")]
      = applyFormat .strict [[(("good" : String), [Part.hole (Field.var "v")])]]
          [("v", "1")]
    ∧ (([] : List (List Entry)) ++
        ([] ++ (("bad", [Part.hole (Field.var "missing")]) :
          Entry) :: [(("good" : String), [Part.hole (Field.var "v")])]) :: [])
      = [[(("bad" : String), [Part.hole (Field.var "missing")]),
          (("good" : String), [Part.hole (Field.var "v")])]] :=
  ⟨by rfl,
    (spec_C3 [("v", "1")]).1 [] [] [(("good" : String), [Part.hole (Field.var "v")])]
      [] "bad" [Part.hole (Field.var "missing")] (by rfl),
    by decide⟩

/-! ## C6: the repository layer wins for a name defined in several layers -/

/-- C6: when the global layer and the repository layer both define the
prompt name `x`, the resolved value of `x` is the formatting of the
repository layer's template at its point of the single pass — in lenient
mode unconditionally, and in strict mode whenever the repository template
resolves — so the layer order global, user, repository gives last-write-wins
per name. -/
theorem spec_C6 (gd ud rpre rsuf : List Entry) (x : String) (tg tr : Template)
    (vars : List (String × String))
    (_hg : gd.lookup x = some tg)
    (hsuf : ∀ p ∈ rsuf, p.1 ≠ x) :
    (applyFormat .lenient [gd, ud, rpre ++ (x, tr) :: rsuf] vars).lookup x
      = some (formatLenient tr
          ⟨vars, runEntries .lenient vars (gd ++ ud ++ rpre)⟩)
    ∧ ∀ s, formatStrict tr ⟨vars, runEntries .strict vars (gd ++ ud ++ rpre)⟩
          = .ok s →
        (applyFormat .strict [gd, ud, rpre ++ (x, tr) :: rsuf] vars).lookup x
          = some s := by
  have hfl : ([gd, ud, rpre ++ (x, tr) :: rsuf] : List (List Entry)).flatten
      = (gd ++ ud ++ rpre) ++ (x, tr) :: rsuf := by
    simp [List.append_assoc]
  constructor
  · rw [applyFormat, hfl]
    exact lookup_run_last .lenient vars (gd ++ ud ++ rpre) rsuf x tr _ rfl hsuf
  · intro s hok
    rw [applyFormat, hfl]
    exact lookup_run_last .strict vars (gd ++ ud ++ rpre) rsuf x tr s hok hsuf

/-- Witness for C6: global defines `x` as `"G"`, the repository redefines it
as `"R"`, and the resolved value is the repository's. -/
theorem spec_C6_witness :
    ([(("x" : String), ([Part.lit "G"] : Template))].lookup "x"
       = some [Part.lit "G"])
    ∧ (applyFormat .lenient
        [[(("x" : String), [Part.lit "G"])], [],
          [(("x" : String), [Part.lit "R"])]] []).lookup "x" = some "R" := by
  refine ⟨by decide, ?_⟩
  have h := (spec_C6 [(("x" : String), [Part.lit "G"])] [] [] [] "x"
    [Part.lit "G"] [Part.lit "R"] [] (by decide) (by simp)).1
  simp only [List.nil_append, List.append_nil] at h
  rw [h]
  decide

/-! ## C8: the streaming formatter never throws and accumulates the buffer -/

theorem formatCurrentBuffer_of_render_none {R : Type}
    (render : String → String → Option R) (sf : StreamingFormatter)
    (hnone : ∀ fty, render fty sf.buffer = none) :
    formatCurrentBuffer render sf = .raw sf.buffer := by
  rw [formatCurrentBuffer]
  split_ifs <;> simp [renderFallback, hnone]

theorem displayStream_length {R : Type} (render : String → String → Option R) :
    ∀ (frags : List String) (sf : StreamingFormatter),
      (displayStream render sf frags).2.length = frags.length := by
  intro frags
  induction frags with
  | nil => intro sf; rfl
  | cons c cs ih => intro sf; simp [displayStream, ih]

theorem displayStream_run {R : Type} (render : String → String → Option R) :
    ∀ (frags : List String) (sf : StreamingFormatter),
      (displayStream render sf frags).1
        = { sf with buffer := sf.buffer ++ concatAll frags }
      ∧ ∀ (k : Nat), k < frags.length →
          ((displayStream render sf frags).2)[k]? =
            some (formatCurrentBuffer render
              { sf with buffer := sf.buffer ++ concatAll (frags.take (k + 1)) }) := by
  intro frags
  induction frags with
  | nil =>
    intro sf
    refine ⟨?_, ?_⟩
    · simp [displayStream, concatAll, String.append_empty]
    · intro k hk
      simp at hk
  | cons c cs ih =>
    intro sf
    obtain ⟨ih1, ih2⟩ := ih { sf with buffer := sf.buffer ++ c }
    have hstep : displayStream render sf (c :: cs)
        = ((displayStream render { sf with buffer := sf.buffer ++ c } cs).1,
           formatCurrentBuffer render { sf with buffer := sf.buffer ++ c }
             :: (displayStream render { sf with buffer := sf.buffer ++ c } cs).2) := rfl
    refine ⟨?_, ?_⟩
    · rw [hstep]
      rw [ih1]
      simp [concatAll, String.append_assoc]
    · intro k hk
      rw [hstep]
      cases k with
      | zero =>
        simp [concatAll, String.append_empty]
      | succ k0 =>
        simp only [List.getElem?_cons_succ]
        rw [ih2 k0 (by simpa using hk)]
        simp [concatAll, String.append_assoc]

/-- C8: feeding any finite fragment sequence through the streaming
formatter, every render call produces a value (the render step is a total
function); after the n-th fragment the internal buffer is the concatenation
of fragments 1 through n (both at the end and at every intermediate call);
and whenever the highlighter fails on the accumulated buffer, the render
call falls back to the raw buffer text instead of propagating the failure. -/
theorem spec_C8 {R : Type} (render : String → String → Option R)
    (format_type : String) (frags : List String) :
    (displayStream render ⟨"", format_type⟩ frags).1.buffer = concatAll frags
    ∧ (displayStream render ⟨"", format_type⟩ frags).2.length = frags.length
    ∧ (∀ k, k < frags.length →
        ((displayStream render ⟨"", format_type⟩ frags).2)[k]? =
          some (formatCurrentBuffer render
            ⟨concatAll (frags.take (k + 1)), format_type⟩))
    ∧ (∀ k, k < frags.length →
        (∀ fty, render fty (concatAll (frags.take (k + 1))) = none) →
        ((displayStream render ⟨"", format_type⟩ frags).2)[k]? =
          some (.raw (concatAll (frags.take (k + 1))))) := by
  obtain ⟨h1, h2⟩ := displayStream_run render frags ⟨"", format_type⟩
  have hbuf : ∀ s : String, ("" : String) ++ s = s := fun s => String.empty_append s
  refine ⟨?_, displayStream_length render frags _, ?_, ?_⟩
  · rw [h1]
    exact hbuf _
  · intro k hk
    rw [h2 k hk]
    simp [hbuf]
  · intro k hk hnone
    rw [h2 k hk]
    simp only [hbuf]
    rw [formatCurrentBuffer_of_render_none render _ hnone]

/-- Witness for C8 at the spec scenario: the two diff fragments, with a
highlighter stub that always fails, render without error and the second
render call returns the raw concatenated buffer. -/
theorem spec_C8_witness :
    (displayStream (R := Unit) (fun _ _ => none) ⟨"", "diff"⟩
        ["```diff\n-a", "+b\n```"]).1.buffer = "```diff\n-a+b\n```"
    ∧ ((displayStream (R := Unit) (fun _ _ => none) ⟨"", "diff"⟩
        ["```diff\n-a", "+b\n```"]).2)[1]? =
        some (.raw "```diff\n-a+b\n```") := by
  have h := spec_C8 (R := Unit) (fun _ _ => none) "diff" ["```diff\n-a", "+b\n```"]
  constructor
  · rw [h.1]
    decide
  · have h4 := h.2.2.2 1 (by decide) (fun fty => rfl)
    rw [h4]
    decide

/-! ## Lemmas about the `with_retry` loop -/

theorem execute_ok (req : LLMRequest) (dm : String)
    (p1 : String → String → String → Except String String) (r : String)
    (hprov : ∀ m p s, p1 m p s = .ok r) (hp : req.prompt ≠ "") :
    execute req dm false p1 = (.ok r, [(req.prompt, req.system_prompt)]) := by
  rw [execute, if_neg hp]
  simp [hprov]

theorem set_prompt_self (req : LLMRequest) (orig : String) (h : req.prompt = orig) :
    { req with prompt := orig } = req := by
  subst h
  rfl

theorem withRetryLoop_succ_eq {T : Type} (dm : String) (ab : Bool)
    (pA : Nat → String → String → String → Except String String)
    (func : Nat → String → Except String T) (orig : String) (rt n i : Nat)
    (req : LLMRequest) (errors : List String) (calls : List (String × String)) :
    withRetryLoop dm ab pA func orig rt (n + 1) i req errors calls
      = (let req1 := if errors.isEmpty then req
            else { req with prompt := buildRetryPrompt orig errors }
         let ec := execute req1 dm ab (pA i)
         match ec.1 with
         | .error e =>
           { outcome := .error (.execFailure e), finalReq := req1,
             calls := calls ++ ec.2 }
         | .ok r =>
           match func i r with
           | .ok t =>
             { outcome := .ok t, finalReq := req1, calls := calls ++ ec.2 }
           | .error e =>
             withRetryLoop dm ab pA func orig rt n (i + 1)
               { req1 with prompt := orig } (errors ++ [e]) (calls ++ ec.2)) :=
  rfl

/-- One attempt of the loop when the provider succeeds: the sent prompt is
`sentPrompt orig err i` and the loop either returns the validator's result
or recurses with that attempt's error appended. -/
theorem withRetryLoop_attempt {T : Type} (dm : String)
    (pA : Nat → String → String → String → Except String String)
    (resp : Nat → String) (func : Nat → String → Except String T)
    (err : Nat → String) (orig : String) (rt : Nat)
    (hprov : ∀ i m p s, pA i m p s = .ok (resp i)) (horig : orig ≠ "")
    (n i : Nat) (req : LLMRequest) (calls : List (String × String))
    (h : req.prompt = orig) :
    withRetryLoop dm false pA func orig rt (n + 1) i req
        ((List.range i).map err) calls
      = match func i (resp i) with
        | .ok t =>
          { outcome := .ok t
            finalReq := { req with prompt := sentPrompt orig err i }
            calls := calls ++ [(sentPrompt orig err i, req.system_prompt)] }
        | .error e =>
          withRetryLoop dm false pA func orig rt n (i + 1) req
            (((List.range i).map err) ++ [e])
            (calls ++ [(sentPrompt orig err i, req.system_prompt)]) := by
  rw [withRetryLoop_succ_eq]
  by_cases hi : i = 0
  · subst hi
    have hne : req.prompt ≠ "" := by rw [h]; exact horig
    have hexec := execute_ok req dm (pA 0) (resp 0) (fun m p s => hprov 0 m p s) hne
    have hsp : sentPrompt orig err 0 = req.prompt := by
      rw [sentPrompt, if_pos rfl, h]
    simp only [List.range_zero, List.map_nil, List.isEmpty_nil, if_true, hexec,
      hsp, List.nil_append]
    cases hfunc : func 0 (resp 0) with
    | ok t =>
      simp only [set_prompt_self req req.prompt rfl]
    | error e =>
      simp only [set_prompt_self req orig h]
  · have hemp : (((List.range i).map err).isEmpty) = false := by
      simp [List.isEmpty_iff, List.range_eq_nil, hi]
    have hsp : sentPrompt orig err i
        = buildRetryPrompt orig ((List.range i).map err) := by
      rw [sentPrompt, if_neg hi]
    have hne : ({ req with prompt := buildRetryPrompt orig ((List.range i).map err) }
        : LLMRequest).prompt ≠ "" := buildRetryPrompt_ne_empty _ _
    have hexec := execute_ok
      { req with prompt := buildRetryPrompt orig ((List.range i).map err) }
      dm (pA i) (resp i) (fun m p s => hprov i m p s) hne
    simp only [hemp, Bool.false_eq_true, if_false, hexec, hsp]
    cases hfunc : func i (resp i) with
    | ok t => rfl
    | error e =>
      simp only [set_prompt_self req orig h]

theorem withRetryLoop_attempt_ok {T : Type} (dm : String)
    (pA : Nat → String → String → String → Except String String)
    (resp : Nat → String) (func : Nat → String → Except String T)
    (err : Nat → String) (orig : String) (rt : Nat)
    (hprov : ∀ i m p s, pA i m p s = .ok (resp i)) (horig : orig ≠ "")
    (n i : Nat) (req : LLMRequest) (calls : List (String × String))
    (h : req.prompt = orig) (t : T) (hfunc : func i (resp i) = .ok t) :
    withRetryLoop dm false pA func orig rt (n + 1) i req
        ((List.range i).map err) calls
      = { outcome := .ok t
          finalReq := { req with prompt := sentPrompt orig err i }
          calls := calls ++ [(sentPrompt orig err i, req.system_prompt)] } := by
  rw [withRetryLoop_attempt dm pA resp func err orig rt hprov horig n i req calls h,
    hfunc]

theorem withRetryLoop_attempt_err {T : Type} (dm : String)
    (pA : Nat → String → String → String → Except String String)
    (resp : Nat → String) (func : Nat → String → Except String T)
    (err : Nat → String) (orig : String) (rt : Nat)
    (hprov : ∀ i m p s, pA i m p s = .ok (resp i)) (horig : orig ≠ "")
    (n i : Nat) (req : LLMRequest) (calls : List (String × String))
    (h : req.prompt = orig) (e : String) (hfunc : func i (resp i) = .error e) :
    withRetryLoop dm false pA func orig rt (n + 1) i req
        ((List.range i).map err) calls
      = withRetryLoop dm false pA func orig rt n (i + 1) req
          (((List.range i).map err) ++ [e])
          (calls ++ [(sentPrompt orig err i, req.system_prompt)]) := by
  rw [withRetryLoop_attempt dm pA resp func err orig rt hprov horig n i req calls h,
    hfunc]

/-- The `(prompt, system_prompt)` pairs sent on attempts `i, …, i+n-1` when
every one of those attempts runs (each earlier one having failed). -/
def sentCalls (orig : String) (err : Nat → String) (sys : String) :
    Nat → Nat → List (String × String)
  | 0, _ => []
  | n + 1, i => (sentPrompt orig err i, sys) :: sentCalls orig err sys n (i + 1)

theorem sentCalls_length (orig : String) (err : Nat → String) (sys : String) :
    ∀ n i, (sentCalls orig err sys n i).length = n := by
  intro n
  induction n with
  | zero => intro i; rfl
  | succ n ih => intro i; simp [sentCalls, ih]

theorem getLast?_range_map (err : Nat → String) (m : Nat) (hm : 1 ≤ m) :
    ((List.range m).map err).getLast? = some (err (m - 1)) := by
  obtain ⟨m0, rfl⟩ : ∃ m0, m = m0 + 1 := ⟨m - 1, by omega⟩
  rw [List.range_succ, List.map_append]
  simp

/-- Running the loop when every attempt in the remaining budget fails: the
loop exhausts the fuel, sends the cumulative prompts, restores the original
prompt, and ends on `errors[-1]`. -/
theorem withRetryLoop_fail_run {T : Type} (dm : String)
    (pA : Nat → String → String → String → Except String String)
    (resp : Nat → String) (func : Nat → String → Except String T)
    (err : Nat → String) (orig : String) (rt : Nat)
    (hprov : ∀ i m p s, pA i m p s = .ok (resp i)) (horig : orig ≠ "") :
    ∀ (n i : Nat) (req : LLMRequest) (calls : List (String × String)),
      req.prompt = orig →
      (∀ j, i ≤ j → j < i + n → func j (resp j) = .error (err j)) →
      withRetryLoop dm false pA func orig rt n i req ((List.range i).map err) calls
        = { outcome :=
              match ((List.range (i + n)).map err).getLast? with
              | some e => .error (.failedAfter rt e)
              | none => .error .indexError
            finalReq := req
            calls := calls ++ sentCalls orig err req.system_prompt n i } := by
  intro n
  induction n with
  | zero =>
    intro i req calls h _
    simp [withRetryLoop, sentCalls]
  | succ n ih =>
    intro i req calls h hfail
    rw [withRetryLoop_attempt_err dm pA resp func err orig rt hprov horig n i req
      calls h (err i) (hfail i (Nat.le_refl i) (by omega))]
    have hr : ((List.range i).map err) ++ [err i] = (List.range (i + 1)).map err := by
      rw [List.range_succ, List.map_append]
      rfl
    rw [hr, ih (i + 1) req (calls ++ [(sentPrompt orig err i, req.system_prompt)]) h
      (fun j hj1 hj2 => hfail j (by omega) (by omega))]
    have hn : i + 1 + n = i + (n + 1) := by omega
    rw [hn]
    simp [sentCalls, List.append_assoc]

/-- Running the loop when attempts before `k` fail and attempt `k`
succeeds: the loop stops at attempt `k` with the validator's result, the
request left holding attempt `k`'s prompt. -/
theorem withRetryLoop_succ_run {T : Type} (dm : String)
    (pA : Nat → String → String → String → Except String String)
    (resp : Nat → String) (func : Nat → String → Except String T)
    (err : Nat → String) (orig : String) (rt : Nat) (k : Nat) (t : T)
    (hprov : ∀ i m p s, pA i m p s = .ok (resp i)) (horig : orig ≠ "")
    (hfail : ∀ j, j < k → func j (resp j) = .error (err j))
    (hsucc : func k (resp k) = .ok t) :
    ∀ (n i : Nat) (req : LLMRequest) (calls : List (String × String)),
      req.prompt = orig → i ≤ k → k < i + n →
      withRetryLoop dm false pA func orig rt n i req ((List.range i).map err) calls
        = { outcome := .ok t
            finalReq := { req with prompt := sentPrompt orig err k }
            calls := calls ++ sentCalls orig err req.system_prompt (k - i + 1) i } := by
  intro n
  induction n with
  | zero =>
    intro i req calls h hik hkn
    omega
  | succ n ih =>
    intro i req calls h hik hkn
    rcases Nat.eq_or_lt_of_le hik with heq | hlt
    · subst heq
      rw [withRetryLoop_attempt_ok dm pA resp func err orig rt hprov horig n i req
        calls h t hsucc]
      have hkk : i - i + 1 = 1 := by omega
      rw [hkk]
      simp [sentCalls]
    · rw [withRetryLoop_attempt_err dm pA resp func err orig rt hprov horig n i req
        calls h (err i) (hfail i hlt)]
      have hr : ((List.range i).map err) ++ [err i] = (List.range (i + 1)).map err := by
        rw [List.range_succ, List.map_append]
        rfl
      rw [hr, ih (i + 1) req (calls ++ [(sentPrompt orig err i, req.system_prompt)]) h
        (by omega) (by omega)]
      have hs : k - i + 1 = (k - (i + 1) + 1) + 1 := by omega
      rw [hs]
      simp [sentCalls, List.append_assoc]

/-- Whatever happens inside the loop, only the `prompt` field of the request
is ever reassigned: the final request is the input request with some
prompt. -/
theorem withRetryLoop_frame {T : Type} (dm : String) (ab : Bool)
    (pA : Nat → String → String → String → Except String String)
    (func : Nat → String → Except String T) (orig : String) (rt : Nat) :
    ∀ (n i : Nat) (req : LLMRequest) (errors : List String)
      (calls : List (String × String)),
      ∃ p, (withRetryLoop dm ab pA func orig rt n i req errors calls).finalReq
        = { req with prompt := p } := by
  intro n
  induction n with
  | zero =>
    intro i req errors calls
    exact ⟨req.prompt, (set_prompt_self req req.prompt rfl).symm⟩
  | succ n ih =>
    intro i req errors calls
    rw [withRetryLoop_succ_eq]
    cases hb : errors.isEmpty with
    | true =>
      simp only [hb, if_true]
      cases hec : (execute req dm ab (pA i)).1 with
      | error e =>
        refine ⟨req.prompt, ?_⟩
        simp only [hec]
      | ok r =>
        cases hf : func i r with
        | ok t =>
          refine ⟨req.prompt, ?_⟩
          simp only [hec, hf]
        | error e =>
          obtain ⟨p, hp⟩ := ih (i + 1) { req with prompt := orig } (errors ++ [e])
            (calls ++ (execute req dm ab (pA i)).2)
          refine ⟨p, ?_⟩
          simp only [hec, hf]
          exact hp
    | false =>
      simp only [hb, Bool.false_eq_true, if_false]
      cases hec : (execute { req with prompt := buildRetryPrompt orig errors }
          dm ab (pA i)).1 with
      | error e =>
        refine ⟨buildRetryPrompt orig errors, ?_⟩
        simp only [hec]
      | ok r =>
        cases hf : func i r with
        | ok t =>
          refine ⟨buildRetryPrompt orig errors, ?_⟩
          simp only [hec, hf]
        | error e =>
          obtain ⟨p, hp⟩ := ih (i + 1) { req with prompt := orig } (errors ++ [e])
            (calls ++ (execute { req with prompt := buildRetryPrompt orig errors }
              dm ab (pA i)).2)
          refine ⟨p, ?_⟩
          simp only [hec, hf]
          exact hp

/-! ## C1: retry attempts accumulate all prior errors, system prompt fixed -/

/-- C1: with a validator failing on attempts 1 and 2 (errors `e1`, `e2`) and
succeeding on attempt 3 under budget 3, the prompts sent are: the pristine
original; the original followed by the error block for `e1`; the original
followed by the error block for both `e1` and `e2` (all errors so far, in
order) — and the system prompt sent is the same on all three attempts.  The
error block is spelled out to show it embeds every accumulated error's
string form. -/
theorem spec_C1 {T : Type} (dm : String)
    (pA : Nat → String → String → String → Except String String)
    (resp : Nat → String) (req : LLMRequest)
    (func : Nat → String → Except String T) (e1 e2 : String) (t : T)
    (hprov : ∀ i m p s, pA i m p s = .ok (resp i))
    (horig : req.prompt ≠ "")
    (h0 : func 0 (resp 0) = .error e1)
    (h1 : func 1 (resp 1) = .error e2)
    (h2 : func 2 (resp 2) = .ok t) :
    (withRetry req dm false pA func 3).calls
      = [(req.prompt, req.system_prompt),
         (req.prompt ++ errorBlock [e1], req.system_prompt),
         (req.prompt ++ errorBlock [e1, e2], req.system_prompt)]
    ∧ errorBlock [e1] = "\n\nPrevious errors:\n```\n" ++ e1 ++ "\n```\n"
    ∧ errorBlock [e1, e2]
        = "\n\nPrevious errors:\n```\n" ++ (e1 ++ "\n" ++ e2) ++ "\n```\n"
    ∧ (withRetry req dm false pA func 3).outcome = .ok t := by
  have hfail : ∀ j, j < 2 →
      func j (resp j) = .error ((fun j => if j = 0 then e1 else e2) j) := by
    intro j hj
    rcases j with _ | _ | j
    · simpa using h0
    · simpa using h1
    · omega
  have hrun := withRetryLoop_succ_run dm pA resp func
    (fun j => if j = 0 then e1 else e2) req.prompt 3 2 t hprov horig hfail h2
    3 0 req [] rfl (Nat.zero_le 2) (by omega)
  simp only [List.range_zero, List.map_nil] at hrun
  unfold withRetry
  rw [hrun]
  refine ⟨?_, rfl, rfl, rfl⟩
  simp [sentCalls, sentPrompt, buildRetryPrompt, List.range_succ]

/-- Witness for C1 at a concrete request, stub provider and stateful
validator. -/
theorem spec_C1_witness :
    (withRetry (⟨"write a poem", "system", none, true, "markdown"⟩ : LLMRequest)
        "m4" false (fun _ _ _ _ => .ok "out")
        (fun i _ => if i = 0 then .error "bad 1"
          else if i = 1 then .error "bad 2" else .ok (7 : Nat)) 3).calls
      = [("write a poem", "system"),
         ("write a poem" ++ errorBlock ["bad 1"], "system"),
         ("write a poem" ++ errorBlock ["bad 1", "bad 2"], "system")]
    ∧ errorBlock ["bad 1"]
        = "\n\nPrevious errors:\n```\n" ++ "bad 1" ++ "\n```\n"
    ∧ errorBlock ["bad 1", "bad 2"]
        = "\n\nPrevious errors:\n```\n" ++ ("bad 1" ++ "\n" ++ "bad 2") ++ "\n```\n"
    ∧ (withRetry (⟨"write a poem", "system", none, true, "markdown"⟩ : LLMRequest)
        "m4" false (fun _ _ _ _ => .ok "out")
        (fun i _ => if i = 0 then .error "bad 1"
          else if i = 1 then .error "bad 2" else .ok (7 : Nat)) 3).outcome
      = .ok 7 :=
  spec_C1 "m4" (fun _ _ _ _ => .ok "out") (fun _ => "out")
    ⟨"write a poem", "system", none, true, "markdown"⟩
    (fun i _ => if i = 0 then .error "bad 1"
      else if i = 1 then .error "bad 2" else .ok (7 : Nat))
    "bad 1" "bad 2" 7 (fun _ _ _ _ => rfl) (by decide) rfl rfl rfl

/-! ## C2: retry exhaustion and immediate success -/

/-- C2: with an always-failing validator and budget `N ≥ 1`, `with_retry`
makes exactly `N` provider attempts and then fails with the user-visible
`ClickException("Failed after N retries")` raised from (wrapping) the last
validator error; and whenever the validator first succeeds on some attempt
`k < retries`, `with_retry` returns the validator's result having made only
the `k + 1` attempts up to and including the successful one. -/
theorem spec_C2 {T : Type} (dm : String)
    (pA : Nat → String → String → String → Except String String)
    (resp : Nat → String) (req : LLMRequest)
    (hprov : ∀ i m p s, pA i m p s = .ok (resp i))
    (horig : req.prompt ≠ "") :
    (∀ (func : Nat → String → Except String T) (err : Nat → String) (N : Nat),
        1 ≤ N →
        (∀ j, func j (resp j) = .error (err j)) →
        (withRetry req dm false pA func N).outcome
            = .error (.failedAfter N (err (N - 1)))
        ∧ (withRetry req dm false pA func N).calls.length = N)
    ∧ (∀ (func : Nat → String → Except String T) (err : Nat → String)
        (k retries : Nat) (t : T),
        k < retries →
        (∀ j, j < k → func j (resp j) = .error (err j)) →
        func k (resp k) = .ok t →
        (withRetry req dm false pA func retries).outcome = .ok t
        ∧ (withRetry req dm false pA func retries).calls.length = k + 1) := by
  constructor
  · intro func err N hN hfail
    have hrun := withRetryLoop_fail_run dm pA resp func err req.prompt N hprov horig
      N 0 req [] rfl (fun j _ _ => hfail j)
    simp only [List.range_zero, List.map_nil, Nat.zero_add] at hrun
    rw [getLast?_range_map err N hN] at hrun
    unfold withRetry
    rw [hrun]
    exact ⟨rfl, by simp [sentCalls_length]⟩
  · intro func err k retries t hk hfail hsucc
    have hrun := withRetryLoop_succ_run dm pA resp func err req.prompt retries k t
      hprov horig hfail hsucc retries 0 req [] rfl (Nat.zero_le k) (by omega)
    simp only [List.range_zero, List.map_nil] at hrun
    unfold withRetry
    rw [hrun]
    exact ⟨rfl, by simp [sentCalls_length]⟩

/-- Witness for C2: an always-failing validator with budget 2, and a
validator succeeding on attempt 2 of budget 3. -/
theorem spec_C2_witness :
    ((withRetry (⟨"q", "s", none, true, "markdown"⟩ : LLMRequest) "m" false
        (fun _ _ _ _ => .ok "r")
        (fun _ _ => (.error "oops" : Except String Nat)) 2).outcome
      = .error (.failedAfter 2 "oops")
    ∧ (withRetry (⟨"q", "s", none, true, "markdown"⟩ : LLMRequest) "m" false
        (fun _ _ _ _ => .ok "r")
        (fun _ _ => (.error "oops" : Except String Nat)) 2).calls.length = 2)
    ∧ ((withRetry (⟨"q", "s", none, true, "markdown"⟩ : LLMRequest) "m" false
        (fun _ _ _ _ => .ok "r")
        (fun i _ => if i = 0 then .error "oops" else .ok (5 : Nat)) 3).outcome
      = .ok 5
    ∧ (withRetry (⟨"q", "s", none, true, "markdown"⟩ : LLMRequest) "m" false
        (fun _ _ _ _ => .ok "r")
        (fun i _ => if i = 0 then .error "oops" else .ok (5 : Nat)) 3).calls.length
      = 2) := by
  obtain ⟨hA, hB⟩ := spec_C2 (T := Nat) "m" (fun _ _ _ _ => .ok "r")
    (fun _ => "r") ⟨"q", "s", none, true, "markdown"⟩
    (fun _ _ _ _ => rfl) (by decide)
  exact ⟨hA (fun _ _ => .error "oops") (fun _ => "oops") 2 (by decide)
      (fun _ => rfl),
    hB (fun i _ => if i = 0 then .error "oops" else .ok 5) (fun _ => "oops")
      1 3 5 (by decide)
      (fun j hj => by
        rcases j with _ | j
        · rfl
        · omega)
      rfl⟩

/-! ## C10: a success on a retry leaves the prompt mutated, all else fixed -/

/-- C10: when `with_retry` succeeds on attempt `k + 1 ≥ 2`, the request
object afterwards holds attempt `k + 1`'s error-augmented prompt (the
original plus the accumulated error block), which differs from the pristine
original; and every `with_retry` call — whatever the provider, validator,
abort flag, or budget — leaves `system_prompt`, `model_id`, `stream` and
`output_type` unchanged. -/
theorem spec_C10 {T : Type} (dm : String)
    (pA : Nat → String → String → String → Except String String)
    (resp : Nat → String) (req : LLMRequest)
    (hprov : ∀ i m p s, pA i m p s = .ok (resp i))
    (horig : req.prompt ≠ "") :
    (∀ (func : Nat → String → Except String T) (err : Nat → String)
        (k retries : Nat) (t : T),
        1 ≤ k → k < retries →
        (∀ j, j < k → func j (resp j) = .error (err j)) →
        func k (resp k) = .ok t →
        (withRetry req dm false pA func retries).finalReq
            = { req with prompt :=
                  buildRetryPrompt req.prompt ((List.range k).map err) }
        ∧ (withRetry req dm false pA func retries).finalReq.prompt ≠ req.prompt)
    ∧ (∀ (ab : Bool)
        (pAny : Nat → String → String → String → Except String String)
        (func : Nat → String → Except String T) (retries : Nat),
        (withRetry req dm ab pAny func retries).finalReq.system_prompt
            = req.system_prompt
        ∧ (withRetry req dm ab pAny func retries).finalReq.model_id = req.model_id
        ∧ (withRetry req dm ab pAny func retries).finalReq.stream = req.stream
        ∧ (withRetry req dm ab pAny func retries).finalReq.output_type
            = req.output_type) := by
  constructor
  · intro func err k retries t hk hkr hfail hsucc
    have hrun := withRetryLoop_succ_run dm pA resp func err req.prompt retries k t
      hprov horig hfail hsucc retries 0 req [] rfl (Nat.zero_le k) (by omega)
    simp only [List.range_zero, List.map_nil] at hrun
    have hsp : sentPrompt req.prompt err k
        = buildRetryPrompt req.prompt ((List.range k).map err) := by
      rw [sentPrompt, if_neg (by omega)]
    unfold withRetry
    rw [hrun]
    constructor
    · show ({ req with prompt := sentPrompt req.prompt err k } : LLMRequest) = _
      rw [hsp]
    · show sentPrompt req.prompt err k ≠ req.prompt
      rw [hsp]
      exact buildRetryPrompt_ne_original req.prompt _
  · intro ab pAny func retries
    obtain ⟨p, hp⟩ := withRetryLoop_frame dm ab pAny func req.prompt retries
      retries 0 req [] []
    unfold withRetry
    rw [hp]
    exact ⟨rfl, rfl, rfl, rfl⟩

/-- Witness for C10: success on attempt 2 of budget 2 leaves the request
holding the augmented prompt; the other four fields are untouched. -/
theorem spec_C10_witness :
    ((withRetry (⟨"p", "s", none, true, "markdown"⟩ : LLMRequest) "m" false
        (fun _ _ _ _ => .ok "r")
        (fun i _ => if i = 0 then .error "e" else .ok (1 : Nat)) 2).finalReq
      = { (⟨"p", "s", none, true, "markdown"⟩ : LLMRequest) with
          prompt := buildRetryPrompt "p" ((List.range 1).map (fun _ => "e")) }
    ∧ (withRetry (⟨"p", "s", none, true, "markdown"⟩ : LLMRequest) "m" false
        (fun _ _ _ _ => .ok "r")
        (fun i _ => if i = 0 then .error "e" else .ok (1 : Nat)) 2).finalReq.prompt
      ≠ "p")
    ∧ ((withRetry (⟨"p", "s", none, true, "markdown"⟩ : LLMRequest) "m" false
        (fun _ _ _ _ => .ok "r")
        (fun i _ => if i = 0 then .error "e" else .ok (1 : Nat))
        2).finalReq.system_prompt = "s"
    ∧ (withRetry (⟨"p", "s", none, true, "markdown"⟩ : LLMRequest) "m" false
        (fun _ _ _ _ => .ok "r")
        (fun i _ => if i = 0 then .error "e" else .ok (1 : Nat))
        2).finalReq.model_id = none
    ∧ (withRetry (⟨"p", "s", none, true, "markdown"⟩ : LLMRequest) "m" false
        (fun _ _ _ _ => .ok "r")
        (fun i _ => if i = 0 then .error "e" else .ok (1 : Nat))
        2).finalReq.stream = true
    ∧ (withRetry (⟨"p", "s", none, true, "markdown"⟩ : LLMRequest) "m" false
        (fun _ _ _ _ => .ok "r")
        (fun i _ => if i = 0 then .error "e" else .ok (1 : Nat))
        2).finalReq.output_type = "markdown") := by
  have h := spec_C10 (T := Nat) "m" (fun _ _ _ _ => .ok "r") (fun _ => "r")
    ⟨"p", "s", none, true, "markdown"⟩ (fun _ _ _ _ => rfl) (by decide)
  exact ⟨h.1 (fun i _ => if i = 0 then .error "e" else .ok 1) (fun _ => "e")
      1 2 1 (by decide) (by decide)
      (fun j hj => by
        rcases j with _ | j
        · rfl
        · omega)
      rfl,
    h.2 false (fun _ _ _ _ => .ok "r")
      (fun i _ => if i = 0 then .error "e" else .ok 1) 2⟩

end LlmGit
